import Mathlib

/-!
Verification of the Financial-Agent claims-triage repository.

Part 1 embeds the React upload UI in `src/src/App.jsx`: the mock claim
generator `generateMockClaim`, the file-selection handler
`handleFileSelect`, and the upload handler `handleFileUpload`.
JavaScript's `Math.floor(Math.random() * n)` draws are modelled as
explicit `Fin n` inputs, and the wall-clock reads (`Date.now()`,
`new Date().toLocaleDateString()`) as explicit parameters, so every
function is a pure function of its inputs.

Part 2 models, from the specification, the Claim Intake & Routing
Pipeline (scoring engine, routing table, coordinator) whose backend code
(the claims API / document-processing server) is not among the provided
source files.
-/

/-- A browser `File` object as seen by the upload UI: only its `name` and
MIME `type` are inspected by the code. -/
structure JSFile where
  name : String
  type : String
deriving DecidableEq, Repr, Inhabited

/-- A claim record as produced by `generateMockClaim` in `src/src/App.jsx`. -/
structure MockClaim where
  id : String
  severity : Nat
  complexity : String
  suggestedTeam : String
  flags : List String
  uploadDate : String
  status : String
deriving DecidableEq, Repr, Inhabited

/-- The array `['Low', 'Medium', 'High']` in `generateMockClaim`. -/
def complexityChoices : List String := ["Low", "Medium", "High"]

/-- The team array in `generateMockClaim`. -/
def teamChoices : List String :=
  ["General Claims", "Major Incidents Unit", "Fraud Investigation", "Legal Review"]

/-- The flags array in `generateMockClaim`. -/
def flagChoices : List String :=
  ["Litigation Risk", "Fraudulent Activity Suspected", "High Value", "Urgent Review"]

/-- `generateMockClaim` from `src/src/App.jsx` (lines 35-43).
`sevDraw` models `Math.floor(Math.random() * 10)`, `compDraw`
`Math.floor(Math.random() * 3)`, `teamDraw` `Math.floor(Math.random() * 4)`,
`flagDraw` the `Math.floor(Math.random() * 3)` inside the `slice` bound, and
`today` the string `new Date().toLocaleDateString()`. -/
def generateMockClaim (claimId : String) (today : String)
    (sevDraw : Fin 10) (compDraw : Fin 3) (teamDraw : Fin 4) (flagDraw : Fin 3) :
    MockClaim :=
  { id := claimId
    severity := sevDraw.val + 1
    complexity := complexityChoices.getD compDraw.val ""
    suggestedTeam := teamChoices.getD teamDraw.val ""
    flags := flagChoices.take (flagDraw.val + 1)
    uploadDate := today
    status := "Pending Review" }

/-- `handleFileSelect` from `src/src/App.jsx` (lines 52-61): filters the
selection down to files of MIME type `application/pdf`; if any remain they
are appended to the already-selected list, otherwise an alert is raised.
The returned pair is (new selected-files state, alert message if any). -/
def handleFileSelect (prev files : List JSFile) : List JSFile × Option String :=
  let pdfFiles := files.filter (fun f => f.type == "application/pdf")
  if pdfFiles.length > 0 then
    (prev ++ pdfFiles, none)
  else
    (prev, some "Please select PDF files")

/-- The claim id built in `handleFileUpload`: the template literal
interpolating `Date.now()` and the file's index after the prefix CL-. -/
def claimIdFor (now i : Nat) : String :=
  "CL-" ++ toString now ++ "-" ++ toString i

/-- `handleFileUpload` from `src/src/App.jsx` (lines 376-397): one mock claim
is generated per uploaded file (the callback uses only the file's index), and
the new claims are prepended in front of the previous claims list.
`rand i` supplies the four random draws consumed by the `i`-th call of
`generateMockClaim`. -/
def handleFileUpload (files : List JSFile) (prevClaims : List MockClaim)
    (now : Nat) (today : String)
    (rand : Nat → Fin 10 × Fin 3 × Fin 4 × Fin 3) : List MockClaim :=
  let newClaims := files.enum.map (fun p =>
    generateMockClaim (claimIdFor now p.1) today
      (rand p.1).1 (rand p.1).2.1 (rand p.1).2.2.1 (rand p.1).2.2.2)
  newClaims ++ prevClaims

example :
    (generateMockClaim "CL-1-0" "d" ⟨4, by decide⟩ ⟨2, by decide⟩ ⟨0, by decide⟩
      ⟨1, by decide⟩).severity = 5 := by decide

example :
    (generateMockClaim "CL-1-0" "d" ⟨4, by decide⟩ ⟨2, by decide⟩ ⟨0, by decide⟩
      ⟨1, by decide⟩).flags = ["Litigation Risk", "Fraudulent Activity Suspected"] := by
  decide

example :
    handleFileSelect [] [⟨"a.pdf", "application/pdf"⟩, ⟨"b.txt", "text/plain"⟩] =
      ([⟨"a.pdf", "application/pdf"⟩], none) := by decide

example :
    handleFileSelect [] [⟨"b.txt", "text/plain"⟩] =
      ([], some "Please select PDF files") := by decide

/-- C7: every claim produced by `generateMockClaim` has a severity that is an
integer between 1 and 10 inclusive and a complexity drawn from the
enumeration Low / Medium / High. -/
theorem generateMockClaim_severity_complexity
    (claimId today : String) (a : Fin 10) (b : Fin 3) (c : Fin 4) (d : Fin 3) :
    1 ≤ (generateMockClaim claimId today a b c d).severity ∧
    (generateMockClaim claimId today a b c d).severity ≤ 10 ∧
    (generateMockClaim claimId today a b c d).complexity ∈ complexityChoices := by
  refine ⟨by simp [generateMockClaim], ?_, ?_⟩
  · have h := a.isLt
    simp only [generateMockClaim]
    omega
  · have h : ∀ b : Fin 3, complexityChoices.getD b.val "" ∈ complexityChoices := by
      decide
    simpa [generateMockClaim] using h b

/-- C9: every claim produced by `generateMockClaim` carries a non-empty flags
list that is a length-1-to-3 initial segment of the fixed four-element flag
list starting with Litigation Risk, and its status is the literal string
Pending Review. -/
theorem generateMockClaim_flags_status
    (claimId today : String) (a : Fin 10) (b : Fin 3) (c : Fin 4) (d : Fin 3) :
    (generateMockClaim claimId today a b c d).flags ≠ [] ∧
    1 ≤ (generateMockClaim claimId today a b c d).flags.length ∧
    (generateMockClaim claimId today a b c d).flags.length ≤ 3 ∧
    (generateMockClaim claimId today a b c d).flags =
      flagChoices.take ((generateMockClaim claimId today a b c d).flags.length) ∧
    flagChoices.length = 4 ∧
    (generateMockClaim claimId today a b c d).flags.headD "" = "Litigation Risk" ∧
    (generateMockClaim claimId today a b c d).status = "Pending Review" := by
  have hfl : (generateMockClaim claimId today a b c d).flags =
      flagChoices.take (d.val + 1) := rfl
  have hst : (generateMockClaim claimId today a b c d).status =
      "Pending Review" := rfl
  rw [hfl, hst]
  clear hfl hst
  revert d
  decide

/-- C8: when the selection contains at least one file of MIME type
`application/pdf`, `handleFileSelect` silently keeps only the PDF files
(appending them to the previous selection, raising no alert); the
"Please select PDF files" alert is raised, and the selection left unchanged,
exactly when the selection contains no PDF file. -/
theorem handleFileSelect_cases (prev files : List JSFile) :
    (files.any (fun f => f.type == "application/pdf") = true →
      handleFileSelect prev files =
        (prev ++ files.filter (fun f => f.type == "application/pdf"), none)) ∧
    (files.any (fun f => f.type == "application/pdf") = false →
      handleFileSelect prev files = (prev, some "Please select PDF files")) := by
  have key : 0 < (files.filter (fun f => f.type == "application/pdf")).length ↔
      files.any (fun f => f.type == "application/pdf") = true := by
    rw [List.length_pos]
    simp [List.filter_eq_nil_iff, List.any_eq_true]
  constructor
  · intro h
    simp only [handleFileSelect]
    rw [if_pos (key.mpr h)]
  · intro h
    simp only [handleFileSelect]
    rw [if_neg]
    intro hc
    have hx := key.mp hc
    rw [h] at hx
    exact Bool.noConfusion hx

/-- Concrete check of both branches of `handleFileSelect_cases`: a mixed
PDF/text selection keeps only the PDF with no alert, and an all-text
selection is rejected with the alert. -/
theorem handleFileSelect_cases_witness :
    handleFileSelect [] [⟨"a.pdf", "application/pdf"⟩, ⟨"b.txt", "text/plain"⟩] =
        ([⟨"a.pdf", "application/pdf"⟩], none) ∧
    handleFileSelect [] [⟨"b.txt", "text/plain"⟩] =
        ([], some "Please select PDF files") := by
  constructor
  · exact ((handleFileSelect_cases []
      [⟨"a.pdf", "application/pdf"⟩, ⟨"b.txt", "text/plain"⟩]).1
        (by decide)).trans (by decide)
  · exact (handleFileSelect_cases [] [⟨"b.txt", "text/plain"⟩]).2 (by decide)

/-- Auxiliary: reading position `i` out of a map over an enumeration that
starts counting at `n` yields the function applied to `n + i`. -/
theorem enumFrom_map_getD {α β : Type} (g : Nat → β) (d : β) :
    ∀ (l : List α) (n i : Nat), i < l.length →
      ((List.enumFrom n l).map (fun p => g p.1)).getD i d = g (n + i) := by
  intro l
  induction l with
  | nil =>
    intro n i h
    simp at h
  | cons a t ih =>
    intro n i h
    rw [show List.enumFrom n (a :: t) = (n, a) :: List.enumFrom (n + 1) t from rfl]
    cases i with
    | zero => simp
    | succ j =>
      have hj : j < t.length := by simpa using h
      rw [List.map_cons, List.getD_cons_succ, ih (n + 1) j hj]
      congr 1
      omega

/-- C10: after an upload of `n` files, the claims list has grown by exactly
`n`, the previous claims survive unchanged (and in order) as the tail, and
position `i` of the result, for `i < n`, is the freshly generated mock claim
for the `i`-th uploaded file. -/
theorem handleFileUpload_frame (files : List JSFile) (prevClaims : List MockClaim)
    (now : Nat) (today : String)
    (rand : Nat → Fin 10 × Fin 3 × Fin 4 × Fin 3) :
    (handleFileUpload files prevClaims now today rand).length
        = files.length + prevClaims.length ∧
    (handleFileUpload files prevClaims now today rand).drop files.length
        = prevClaims ∧
    ∀ i, i < files.length →
      (handleFileUpload files prevClaims now today rand).getD i default =
        generateMockClaim (claimIdFor now i) today
          (rand i).1 (rand i).2.1 (rand i).2.2.1 (rand i).2.2.2 := by
  have hnew : handleFileUpload files prevClaims now today rand
      = (files.enum.map (fun p =>
          generateMockClaim (claimIdFor now p.1) today
            (rand p.1).1 (rand p.1).2.1 (rand p.1).2.2.1 (rand p.1).2.2.2))
        ++ prevClaims := rfl
  have hlen : (files.enum.map (fun p =>
      generateMockClaim (claimIdFor now p.1) today
        (rand p.1).1 (rand p.1).2.1 (rand p.1).2.2.1 (rand p.1).2.2.2)).length
      = files.length := by
    simp [List.enum_length]
  refine ⟨?_, ?_, ?_⟩
  · rw [hnew, List.length_append, hlen]
  · rw [hnew, ← hlen, List.drop_left]
  · intro i hi
    rw [hnew, List.getD_append _ _ _ _ (by rw [hlen]; exact hi)]
    have h0 := enumFrom_map_getD
      (fun i => generateMockClaim (claimIdFor now i) today
        (rand i).1 (rand i).2.1 (rand i).2.2.1 (rand i).2.2.2)
      default files 0 i hi
    simpa [List.enum] using h0

/-- A fixed random oracle for exercising `handleFileUpload_frame`. -/
def uploadRand : Nat → Fin 10 × Fin 3 × Fin 4 × Fin 3 :=
  fun _ => (⟨0, by decide⟩, ⟨0, by decide⟩, ⟨0, by decide⟩, ⟨0, by decide⟩)

/-- Concrete check of `handleFileUpload_frame`: a one-file upload places the
generated claim at position 0. -/
theorem handleFileUpload_frame_witness :
    (handleFileUpload [⟨"a.pdf", "application/pdf"⟩] [] 7 "d" uploadRand).getD 0
        default =
      generateMockClaim (claimIdFor 7 0) "d" (uploadRand 0).1 (uploadRand 0).2.1
        (uploadRand 0).2.2.1 (uploadRand 0).2.2.2 :=
  (handleFileUpload_frame [⟨"a.pdf", "application/pdf"⟩] [] 7 "d" uploadRand).2.2
    0 (by decide)

/-- Complexity enumeration of a ScoreResult (spec section 3). -/
inductive Complexity where
  | Low
  | Medium
  | High
deriving DecidableEq, Repr

/-- Risk-flag enumeration of a ScoreResult (spec section 3). -/
inductive RiskFlag where
  | FraudSuspected
  | HighValue
  | LitigationRisk
  | UrgentReview
deriving DecidableEq, Repr

/-- A source citation of an extracted field (spec section 3): document id
plus page number. -/
structure Citation where
  docId : String
  page : Nat
deriving DecidableEq, Repr

/-- An extracted field (spec section 3): key, value, confidence (modelled as
an integer percentage), source citation. -/
structure ExtractedField where
  key : String
  value : String
  confidence : Nat
  cite : Citation
deriving DecidableEq, Repr

/-- A ScoreResult (spec section 3): severity, complexity, risk flags,
computed-at timestamp. -/
structure ScoreResult where
  severity : Nat
  complexity : Complexity
  riskFlags : List RiskFlag
  computedAt : Nat
deriving DecidableEq, Repr

/-- Modelled from the spec: the configured fraud risk keyword of the Scoring
Engine rule set (spec section 4.3); the scoring-engine source itself (the
claims API backend) is not among the provided source files. -/
def fraudKeyword : String := "fraud"

/-- Modelled from the spec: the configured monetary threshold above which an
amount field raises severity (spec section 4.3). -/
def monetaryThreshold : Nat := 100000

/-- Whether a field's text value contains the configured fraud keyword. -/
def mentionsFraud (f : ExtractedField) : Bool :=
  (f.value.splitOn fraudKeyword).length > 1

/-- The monetary amount carried by a field, 0 when not numeric. -/
def amountOf (f : ExtractedField) : Nat :=
  f.value.toNat?.getD 0

/-- Whether some monetary-amount field exceeds the configured threshold. -/
def hasHighAmount (fields : List ExtractedField) : Bool :=
  fields.any (fun f => f.key == "amount" && decide (monetaryThreshold < amountOf f))

/-- Modelled from the spec: risk flags derived from the extracted fields
(presence of the configured risk keyword in text fields sets risk flags,
spec section 4.3). -/
def riskFlagsOf (fields : List ExtractedField) : List RiskFlag :=
  (if fields.any mentionsFraud then [RiskFlag.FraudSuspected] else []) ++
    (if hasHighAmount fields then [RiskFlag.HighValue] else [])

/-- Modelled from the spec: severity derived from the rule set (baseline 1,
raised by high monetary amounts and risk keywords, capped at 10,
spec section 4.3). -/
def severityOf (fields : List ExtractedField) : Nat :=
  min 10 (1 + (if hasHighAmount fields then 4 else 0) +
    (if fields.any mentionsFraud then 3 else 0))

/-- Modelled from the spec: complexity derived from field count and
risk-flag count via fixed thresholds (spec section 4.3). -/
def complexityOf (fields : List ExtractedField) (flags : List RiskFlag) :
    Complexity :=
  if 10 ≤ fields.length ∨ 2 ≤ flags.length then Complexity.High
  else if 4 ≤ fields.length ∨ 1 ≤ flags.length then Complexity.Medium
  else Complexity.Low

/-- Modelled from the spec: the Scoring Engine `score` (spec section 4.3), a
pure function of the extracted fields; `now` is the computed-at timestamp
supplied by the clock. The scoring-engine source (the claims API backend) is
not among the provided source files. -/
def score (fields : List ExtractedField) (now : Nat) : ScoreResult :=
  { severity := severityOf fields
    complexity := complexityOf fields (riskFlagsOf fields)
    riskFlags := riskFlagsOf fields
    computedAt := now }

/-- C1: scoring is deterministic; two calls of `score` on equal field
sequences agree on severity, complexity and risk flags, differing at most in
the computed-at timestamp. -/
theorem score_deterministic (F₁ F₂ : List ExtractedField) (t₁ t₂ : Nat)
    (h : F₁ = F₂) :
    (score F₁ t₁).severity = (score F₂ t₂).severity ∧
    (score F₁ t₁).complexity = (score F₂ t₂).complexity ∧
    (score F₁ t₁).riskFlags = (score F₂ t₂).riskFlags := by
  subst h
  exact ⟨rfl, rfl, rfl⟩

/-- A concrete extracted field used to exercise the scoring theorems. -/
def sampleField : ExtractedField :=
  { key := "amount", value := "250000", confidence := 90,
    cite := { docId := "doc-1", page := 1 } }

/-- Concrete check of `score_deterministic` at a one-field sequence scored
at two different timestamps. -/
theorem score_deterministic_witness :
    (score [sampleField] 1).severity = (score [sampleField] 2).severity ∧
    (score [sampleField] 1).complexity = (score [sampleField] 2).complexity ∧
    (score [sampleField] 1).riskFlags = (score [sampleField] 2).riskFlags :=
  score_deterministic [sampleField] [sampleField] 1 2 rfl

/-- A routing rule: a condition on the score and the team assigned when the
condition is the first to match (spec section 4.4). -/
structure RoutingRule where
  cond : ScoreResult → Bool
  team : String

/-- Modelled from the spec: the configured routing rule table
(spec section 4.4), evaluated top-to-bottom, first match wins; the routing
source (the claims API backend) is not among the provided source files. -/
def routingRules : List RoutingRule :=
  [⟨fun s => decide (8 ≤ s.severity ∨ RiskFlag.FraudSuspected ∈ s.riskFlags),
    "Fraud Investigation"⟩,
   ⟨fun s => decide (s.complexity = Complexity.High), "Major Incidents"⟩,
   ⟨fun _ => true, "General Claims"⟩]

/-- First-match evaluation of a rule table on a score. -/
def firstMatch : List RoutingRule → ScoreResult → Option String
  | [], _ => none
  | r :: rs, s => if r.cond s then some r.team else firstMatch rs s

/-- Modelled from the spec: the Routing Table `route` (spec section 4.4),
a deterministic first-match lookup over the configured rules, with the
catch-all team as default. -/
def route (s : ScoreResult) : String :=
  (firstMatch routingRules s).getD "General Claims"

/-- C2: `route` equals the deterministic first-match lookup the spec
describes: severity at least 8 or the FraudSuspected flag routes to Fraud
Investigation (regardless of severity in the flag case); otherwise High
complexity routes to Major Incidents; otherwise General Claims. -/
theorem route_first_match (s : ScoreResult) :
    route s =
      if 8 ≤ s.severity ∨ RiskFlag.FraudSuspected ∈ s.riskFlags then
        "Fraud Investigation"
      else if s.complexity = Complexity.High then "Major Incidents"
      else "General Claims" := by
  by_cases h1 : 8 ≤ s.severity ∨ RiskFlag.FraudSuspected ∈ s.riskFlags <;>
    by_cases h2 : s.complexity = Complexity.High <;>
      simp [route, routingRules, firstMatch, h1, h2]

/-- Error taxonomy of the Extraction Stage (spec sections 4.2 and 7). -/
inductive ExtractError where
  | UnsupportedFormat
  | ExtractionTimeout
  | CorruptDocument
  | NotFound
deriving DecidableEq, Repr

/-- A stored document (spec section 3): name, MIME type and content bytes
(modelled as a string). -/
structure Document where
  name : String
  mime : String
  content : String
deriving DecidableEq, Repr

/-- Whether a MIME type is one of the two formats the Extraction Stage
accepts (PDF or DOCX, spec section 4.2). -/
def supportedMime (m : String) : Bool :=
  m == "application/pdf" ||
    m == "application/vnd.openxmlformats-officedocument.wordprocessingml.document"

/-- Modelled from the spec: the fields produced for a supported document,
each carrying a citation back to the document (spec section 4.2). -/
def fieldsOfDoc (doc : Document) : List ExtractedField :=
  [{ key := "text", value := doc.content, confidence := 100,
     cite := { docId := doc.name, page := 1 } }]

/-- Modelled from the spec: the Extraction Stage `extract`
(spec section 4.2), absent from the provided source files; a non-PDF/DOCX
document fails with UnsupportedFormat, reported to the caller in the error
branch of the result. -/
def extract (doc : Document) : Except ExtractError (List ExtractedField) :=
  if supportedMime doc.mime then Except.ok (fieldsOfDoc doc)
  else Except.error ExtractError.UnsupportedFormat

/-- Modelled from the spec: the retry policy of the error taxonomy
(spec section 7): only transient external errors are retried; input errors
such as UnsupportedFormat never are. -/
def retryable : ExtractError → Bool
  | ExtractError.ExtractionTimeout => true
  | _ => false

/-- C6: a document whose format is not PDF or DOCX fails extraction with
UnsupportedFormat, which is surfaced to the caller and is not an
automatically retried error. -/
theorem extract_unsupported (doc : Document)
    (h : supportedMime doc.mime = false) :
    extract doc = Except.error ExtractError.UnsupportedFormat ∧
    retryable ExtractError.UnsupportedFormat = false := by
  refine ⟨?_, rfl⟩
  simp [extract, h]

/-- Concrete check of `extract_unsupported` on a plain-text document. -/
theorem extract_unsupported_witness :
    extract { name := "a.txt", mime := "text/plain", content := "x" } =
      Except.error ExtractError.UnsupportedFormat ∧
    retryable ExtractError.UnsupportedFormat = false :=
  extract_unsupported { name := "a.txt", mime := "text/plain", content := "x" }
    (by decide)

/-- The pipeline states of the Coordinator (spec section 4.5), with the
parallel terminal Failed state carrying the failing stage and reason. -/
inductive PipelineState where
  | Submitted
  | Extracting
  | Extracted
  | Scoring
  | Scored
  | Routing
  | Routed
  | Failed (stage : String) (reason : String)
deriving DecidableEq, Repr

/-- Modelled from the spec: the successor of each state in the strict stage
order of the Coordinator (spec section 4.5); terminal states have none. -/
def nextState : PipelineState → Option PipelineState
  | PipelineState.Submitted => some PipelineState.Extracting
  | PipelineState.Extracting => some PipelineState.Extracted
  | PipelineState.Extracted => some PipelineState.Scoring
  | PipelineState.Scoring => some PipelineState.Scored
  | PipelineState.Scored => some PipelineState.Routing
  | PipelineState.Routing => some PipelineState.Routed
  | PipelineState.Routed => none
  | PipelineState.Failed _ _ => none

/-- Routed and Failed are the only terminal states (spec section 4.5). -/
def isTerminal : PipelineState → Bool
  | PipelineState.Routed => true
  | PipelineState.Failed _ _ => true
  | _ => false

/-- Whether a state is the Failed terminal. -/
def isFailedState : PipelineState → Bool
  | PipelineState.Failed _ _ => true
  | _ => false

/-- Modelled from the spec: the transitions the Coordinator may drive
(spec section 4.5): one stage forward at a time, or from any non-terminal
state into Failed. -/
def stepOk (s t : PipelineState) : Bool :=
  decide (nextState s = some t) || (!isTerminal s && isFailedState t)

/-- `Reaches s l` holds when a claim created in Submitted can be observed,
over time, to have passed through exactly the state sequence `l`, currently
sitting in state `s`, each transition allowed by `stepOk`. -/
inductive Reaches : PipelineState → List PipelineState → Prop where
  | init : Reaches PipelineState.Submitted [PipelineState.Submitted]
  | step {s t : PipelineState} {l : List PipelineState} :
      Reaches s l → stepOk s t = true → Reaches t (l ++ [t])

/-- The canonical happy-path stage sequence (spec section 4.5). -/
def canonicalStages : List PipelineState :=
  [PipelineState.Submitted, PipelineState.Extracting, PipelineState.Extracted,
   PipelineState.Scoring, PipelineState.Scored, PipelineState.Routing,
   PipelineState.Routed]

/-- Position of each state in the canonical order; Failed sits past the end. -/
def stageRank : PipelineState → Nat
  | PipelineState.Submitted => 0
  | PipelineState.Extracting => 1
  | PipelineState.Extracted => 2
  | PipelineState.Scoring => 3
  | PipelineState.Scored => 4
  | PipelineState.Routing => 5
  | PipelineState.Routed => 6
  | PipelineState.Failed _ _ => 7

/-- Shape invariant of reachable histories: a non-failed claim's history is
exactly the canonical stages up to its current rank; a failed claim's
history is a non-empty canonical stretch of non-terminal stages followed by
the Failed state. -/
theorem reaches_shape {s : PipelineState} {l : List PipelineState}
    (h : Reaches s l) :
    (isFailedState s = false ∧ l = canonicalStages.take (stageRank s + 1)) ∨
    (∃ stg r k, s = PipelineState.Failed stg r ∧ 1 ≤ k ∧ k ≤ 6 ∧
      l = canonicalStages.take k ++ [PipelineState.Failed stg r]) := by
  induction h with
  | init =>
    left
    exact ⟨rfl, rfl⟩
  | step h1 hok ih =>
    rename_i s t l
    rcases ih with ⟨hnf, hl⟩ | ⟨stg, r, k, hs, hk1, hk6, hl⟩
    · rw [stepOk, Bool.or_eq_true, decide_eq_true_eq, Bool.and_eq_true] at hok
      rcases hok with hnext | ⟨hterm, hfail⟩
      · left
        subst hl
        cases s <;> simp [nextState] at hnext <;> subst hnext <;>
          exact ⟨by decide, by decide⟩
      · right
        have hterm' : isTerminal s = false := by
          cases him : isTerminal s
          · rfl
          · rw [him] at hterm
            exact Bool.noConfusion hterm
        cases t <;> simp [isFailedState] at hfail
        rename_i stg r
        refine ⟨stg, r, stageRank s + 1, rfl, ?_, ?_, ?_⟩
        · omega
        · cases s <;> simp [isTerminal] at hterm' <;> simp [stageRank]
        · rw [hl]
    · subst hs
      rw [stepOk] at hok
      simp [nextState, isTerminal] at hok

/-- C5: every state sequence a claim passes through, as observed over time,
is an initial segment of the canonical order Submitted, Extracting,
Extracted, Scoring, Scored, Routing, Routed, or such a (non-empty) initial
segment followed by Failed; in particular no stage is ever skipped or
revisited. -/
theorem reaches_canonical {s : PipelineState} {l : List PipelineState}
    (h : Reaches s l) :
    (∃ k, l = canonicalStages.take k) ∨
    (∃ k stg r, 1 ≤ k ∧ k ≤ 6 ∧
      l = canonicalStages.take k ++ [PipelineState.Failed stg r]) := by
  rcases reaches_shape h with ⟨_, hl⟩ | ⟨stg, r, k, _, hk1, hk6, hl⟩
  · exact Or.inl ⟨stageRank s + 1, hl⟩
  · exact Or.inr ⟨k, stg, r, hk1, hk6, hl⟩

/-- Concrete check of `reaches_canonical` on the two-state history of a
claim that has started extracting. -/
theorem reaches_canonical_witness :
    (∃ k, [PipelineState.Submitted, PipelineState.Extracting] =
      canonicalStages.take k) ∨
    (∃ k stg r, 1 ≤ k ∧ k ≤ 6 ∧
      [PipelineState.Submitted, PipelineState.Extracting] =
        canonicalStages.take k ++ [PipelineState.Failed stg r]) :=
  reaches_canonical (Reaches.step Reaches.init (by decide))

/-- One entry of a claim's reassignment history (spec section 3). -/
structure ReassignEntry where
  fromTeam : Option String
  toTeam : String
  actor : String
  timestamp : Nat
  reason : String
deriving DecidableEq, Repr

/-- A pipeline-level claim record (spec section 3): documents, current
state, extraction output, score, assigned team and reassignment history. -/
structure SClaim where
  id : String
  docs : List Document
  state : PipelineState
  fields : Option (List ExtractedField)
  score : Option ScoreResult
  assignedTeam : Option String
  history : List ReassignEntry
deriving DecidableEq, Repr

/-- Coordinator state: the claim registry plus the idempotency-key index
mapping caller-supplied keys to the claim they created (spec section 4.5). -/
structure CoordState where
  claims : List SClaim
  idemIndex : List (String × String)
deriving DecidableEq, Repr

/-- A freshly submitted claim record. -/
def newSClaim (cid : String) (docs : List Document) : SClaim :=
  { id := cid, docs := docs, state := PipelineState.Submitted,
    fields := none, score := none, assignedTeam := none, history := [] }

/-- Modelled from the spec: the Coordinator `submit` (spec sections 4.5 and
6), absent from the provided source files: a caller-supplied idempotency key
already present in the index returns the existing claim id and leaves the
state untouched; otherwise a fresh claim record is created and indexed. -/
def submit (st : CoordState) (docs : List Document) (key freshId : String) :
    String × CoordState :=
  match st.idemIndex.find? (fun p => p.1 == key) with
  | some p => (p.2, st)
  | none =>
    (freshId,
     { claims := newSClaim freshId docs :: st.claims,
       idemIndex := (key, freshId) :: st.idemIndex })

/-- C3: `submit` is idempotent in the idempotency key: a second call with
the identical document set and the same key returns the claim id of the
existing claim and leaves the coordinator state unchanged, so no duplicate
claim record is created. -/
theorem submit_idempotent (st : CoordState) (docs : List Document)
    (key f₁ f₂ : String) :
    submit (submit st docs key f₁).2 docs key f₂ = submit st docs key f₁ := by
  cases hfind : st.idemIndex.find? (fun p => p.1 == key) with
  | some p =>
    simp [submit, hfind]
  | none =>
    simp [submit, hfind, List.find?]

/-- Updating one claim on reassignment (spec section 4.4): the assigned team
changes and exactly one history entry is appended; nothing else changes. -/
def reassignClaim (c : SClaim) (team actor reason : String) (ts : Nat) :
    SClaim :=
  { c with
    assignedTeam := some team,
    history := c.history ++
      [{ fromTeam := c.assignedTeam, toTeam := team, actor := actor,
         timestamp := ts, reason := reason }] }

/-- Modelled from the spec: the Routing Table `reassign`
(spec section 4.4), absent from the provided source files: it fails only
when no claim carries the requested id, and otherwise rewrites the registry
with the matching claim reassigned. -/
def reassign (claims : List SClaim) (cid team actor reason : String)
    (ts : Nat) : Option (List SClaim) :=
  if claims.any (fun c => c.id == cid) then
    some (claims.map (fun c =>
      if c.id == cid then reassignClaim c team actor reason ts else c))
  else none

/-- C4: `reassign` is rejected exactly when the claim id is unknown; for a
known id it succeeds, preserves the registry size, appends exactly one
history entry to the matching claim and updates its assigned team while
leaving its score (and every other claim) unchanged. -/
theorem reassign_spec (claims : List SClaim) (cid team actor reason : String)
    (ts : Nat) :
    (reassign claims cid team actor reason ts = none ↔
      ∀ c ∈ claims, c.id ≠ cid) ∧
    ((∃ c ∈ claims, c.id = cid) →
      ∃ cs', reassign claims cid team actor reason ts = some cs' ∧
        cs'.length = claims.length ∧
        ∀ p ∈ claims.zip cs',
          (p.1.id = cid →
            p.2.history.length = p.1.history.length + 1 ∧
            p.2.assignedTeam = some team ∧
            p.2.score = p.1.score) ∧
          (p.1.id ≠ cid → p.2 = p.1)) := by
  have hzip : claims.zip (claims.map (fun c =>
      if c.id == cid then reassignClaim c team actor reason ts else c)) =
      claims.map (fun c =>
        (c, if c.id == cid then reassignClaim c team actor reason ts else c)) := by
    nth_rewrite 1 [← List.map_id claims]
    rw [List.zip_map']
    simp
  constructor
  · rw [reassign]
    by_cases hany : claims.any (fun c => c.id == cid) = true
    · rw [if_pos hany]
      rw [List.any_eq_true] at hany
      rcases hany with ⟨c, hc, hcid⟩
      simp only [beq_iff_eq] at hcid
      constructor
      · intro hcontra
        exact Option.noConfusion hcontra
      · intro hall
        exact absurd hcid (hall c hc)
    · rw [if_neg hany]
      have hall : ∀ c ∈ claims, c.id ≠ cid := by
        intro c hc hcid
        exact hany (List.any_eq_true.mpr ⟨c, hc, by simp [hcid]⟩)
      exact ⟨fun _ => hall, fun _ => rfl⟩
  · intro hex
    rcases hex with ⟨c0, hc0, hcid0⟩
    have hany : claims.any (fun c => c.id == cid) = true :=
      List.any_eq_true.mpr ⟨c0, hc0, by simp [hcid0]⟩
    refine ⟨claims.map (fun c =>
      if c.id == cid then reassignClaim c team actor reason ts else c),
      ?_, by simp, ?_⟩
    · rw [reassign, if_pos hany]
    · rw [hzip]
      intro p hp
      rw [List.mem_map] at hp
      rcases hp with ⟨c, hc, hpc⟩
      subst hpc
      refine ⟨fun hid => ?_, fun hid => ?_⟩
      · simp only at hid
        simp [hid, reassignClaim]
      · simp only at hid
        simp [hid]

/-- A concrete, already-routed claim used to exercise `reassign_spec`. -/
def sampleSClaim : SClaim :=
  { id := "CL-1", docs := [], state := PipelineState.Routed, fields := none,
    score := none, assignedTeam := some "General Claims", history := [] }

/-- Concrete check of `reassign_spec`: reassigning the known claim CL-1
does not fail. -/
theorem reassign_spec_witness :
    reassign [sampleSClaim] "CL-1" "Legal Review" "adjuster" "override" 9 ≠
      none := by
  intro hnone
  have h := (reassign_spec [sampleSClaim] "CL-1" "Legal Review" "adjuster"
    "override" 9).1.mp hnone sampleSClaim (by simp)
  exact h rfl
